import Mathlib

/-!
# Verification of the DeepResearch-study orchestration core

A shallow embedding, in Lean 4, of the orchestration kernel of the
`DeepResearch-study` repository:

* `01_DeepResearch_Original/src/deep_researcher.py` — the clarify → plan →
  delegate → compress → report pipeline (supervisor loop, worker-pool
  admission control, researcher tool fan-out, compressor, final synthesizer);
* `03_Project_AX_Advanced/src/agentic_coding_assistant/agents/self_healing_agent.py`
  — the bounded execute → classify → patch → retry self-healing loop.

External effects (LLM calls, tool backends, the subprocess/filesystem
environment) are modelled as oracles: a function from a call index (or a
call payload) to the outcome the external system produces, with an
`Except` result wherever the Python call can raise.  Python `None`-able
values become `Option`, dict-`get`-with-default becomes `Option.getD`,
and `"\n".join(...)` becomes `pyJoin "\n"`.
-/

/-- Python `sep.join(xs)` (used in the source as `"\n".join(...)`). -/
def pyJoin (sep : String) : List String → String
  | [] => ""
  | [a] => a
  | a :: b :: rest => a ++ sep ++ pyJoin sep (b :: rest)

/-- Does the list start with the given pattern?  (Helper for the embeddings
of Python's `startswith` / `in` / `re.search` on literal patterns.) -/
def listStartsWith [DecidableEq α] : List α → List α → Bool
  | _, [] => true
  | [], _ :: _ => false
  | a :: as, b :: bs => decide (a = b) && listStartsWith as bs

/-- Does the list contain the pattern as a contiguous run? -/
def listContainsSub [DecidableEq α] (pat : List α) : List α → Bool
  | [] => pat.isEmpty
  | a :: as => listStartsWith (a :: as) pat || listContainsSub pat as

/-- Python `pat in s` (and `re.search` of a literal pattern). -/
def pyContains (s pat : String) : Bool :=
  listContainsSub pat.data s.data

/-- Python `s.startswith(pre)`. -/
def pyStartsWith (s pre : String) : Bool :=
  listStartsWith s.data pre.data

/-- Python `s.endswith(suf)`. -/
def pyEndsWith (s suf : String) : Bool :=
  listStartsWith s.data.reverse suf.data.reverse

/-- Python `s[n:]` for `n ≥ 0`. -/
def pyDrop (s : String) (n : Nat) : String :=
  ⟨s.data.drop n⟩

/-- Python `s[:-n]` (for `0 < n ≤ len(s)`): drop the last `n` characters. -/
def pyDropRight (s : String) (n : Nat) : String :=
  ⟨s.data.take (s.data.length - n)⟩

/-- Python `s[:n]` for `n ≥ 0`. -/
def pyTake (s : String) (n : Nat) : String :=
  ⟨s.data.take n⟩

/-- Python `s.strip()`: remove leading and trailing whitespace. -/
def pyStrip (s : String) : String :=
  ⟨((s.data.dropWhile Char.isWhitespace).reverse.dropWhile Char.isWhitespace).reverse⟩

/-- Python `s.lower()`. -/
def pyToLower (s : String) : String :=
  ⟨s.data.map Char.toLower⟩

/-- Python `s.split(sep)` for a single-character separator (used to cut a
text into its lines). -/
def splitOnChar (sep : Char) : List Char → List (List Char)
  | [] => [[]]
  | c :: cs =>
    match splitOnChar sep cs with
    | [] => [[]]
    | h :: t => if c = sep then [] :: h :: t else (c :: h) :: t

/-- The suffix strictly after the first occurrence of `pat`, if `pat`
occurs. -/
def afterFirst [DecidableEq α] (pat : List α) : List α → Option (List α)
  | [] => if pat.isEmpty then some [] else none
  | a :: as =>
    if listStartsWith (a :: as) pat then some ((a :: as).drop pat.length)
    else afterFirst pat as

/-- Message roles of a LangChain conversation thread:
`SystemMessage` / `HumanMessage` / `AIMessage` / `ToolMessage`. -/
inductive Role where
  | system
  | human
  | ai
  | tool
deriving DecidableEq, Repr, Inhabited

/-- One tool call attached to an `AIMessage`.  Every tool the supervisor or a
researcher invokes in the source takes a single string argument
(`reflection` for `think_tool`, `research_topic` for `ConductResearch`),
kept here as `arg`. -/
structure ToolCall where
  name : String
  arg : String
  id : String
deriving DecidableEq, Repr, Inhabited

/-- A role-tagged message of a conversation thread.  `name` and
`tool_call_id` are only populated on `ToolMessage`s, `tool_calls` only on
`AIMessage`s, mirroring the LangChain message classes used by the source. -/
structure Msg where
  role : Role
  content : String
  name : String := ""
  tool_call_id : String := ""
  tool_calls : List ToolCall := []
deriving DecidableEq, Repr, Inhabited

/-- Outcome of one LLM-adapter invocation, as the source distinguishes them:
a successful response with text content, a context/length-limit error
(`is_token_limit_exceeded` returns true), or any other exception. -/
inductive LLMOutcome where
  | ok (content : String)
  | tokenLimitError
  | otherError
deriving DecidableEq, Repr

/-! ## Compressor (`compress_research`, deep_researcher.py lines 569-617) -/

/-- `"\n".join(str(m.content) for m in filter_messages(msgs, include_types=["tool", "ai"]))`:
the raw-notes extraction performed by `compress_research`, keeping the
contents of tool and assistant messages in thread order. -/
def raw_notes_from (messages : List Msg) : String :=
  pyJoin "\n"
    ((messages.filter (fun m => decide (m.role = Role.tool ∨ m.role = Role.ai))).map
      (fun m => m.content))

/-- Modelled from the spec: `remove_up_to_last_ai_message` is defined in the
repository's `utils.py`, which is not among the provided sources.  Spec
§4.5 step 4: on a context/length-limit failure the Compressor must
"truncate the thread by removing messages back to and including the most
recent assistant message (shrinking context)" — i.e. the suffix of the
thread starting at the last assistant message is dropped; a thread with no
assistant message is returned unchanged. -/
def remove_up_to_last_ai_message : List Msg → List Msg
  | [] => []
  | m :: ms =>
    if ms.any (fun x => decide (x.role = Role.ai)) then
      m :: remove_up_to_last_ai_message ms
    else if m.role = Role.ai then []
    else m :: ms

/-- Value returned by `compress_research`: the
`{"compressed_research": ..., "raw_notes": [...]}` dictionary. -/
structure CompressOutput where
  compressed_research : String
  raw_notes : List String
deriving DecidableEq, Repr

/-- The sentinel condensed text returned when all compression attempts fail. -/
def compressExhaustedSentinel : String :=
  "Error synthesizing research report: Maximum retries exceeded"

/-- The `while synthesis_attempts < max_attempts` retry loop of
`compress_research`.  `llm i` is the outcome of the `i`-th LLM invocation;
`left` is the number of failures still allowed (`max_attempts -
synthesis_attempts`).  A token-limit failure truncates the thread with
`remove_up_to_last_ai_message`; any other failure retries on the unchanged
thread; on exhaustion the sentinel text is returned together with the
raw notes of whatever thread remains. -/
def compress_loop (llm : Nat → LLMOutcome) : Nat → Nat → List Msg → CompressOutput
  | 0, _, messages =>
    { compressed_research := compressExhaustedSentinel
      raw_notes := [raw_notes_from messages] }
  | left + 1, i, messages =>
    match llm i with
    | .ok content =>
      { compressed_research := content, raw_notes := [raw_notes_from messages] }
    | .tokenLimitError => compress_loop llm left (i + 1) (remove_up_to_last_ai_message messages)
    | .otherError => compress_loop llm left (i + 1) messages

/-- `compress_research` (with its LLM adapter as oracle `llm`):
appends the "switch to compression mode" human message
(`compress_research_simple_human_message`, prompt text treated as a
black-box parameter `human_msg` per the spec) and runs the retry loop with
`max_attempts = 3`. -/
def compress_research (human_msg : String) (llm : Nat → LLMOutcome)
    (researcher_messages : List Msg) : CompressOutput :=
  compress_loop llm 3 0 (researcher_messages ++ [{ role := Role.human, content := human_msg }])

/-! ## Supervisor loop (deep_researcher.py lines 178-396)

The supervisor subgraph alternates the `supervisor` node (one planning LLM
call, incrementing `research_iterations`) and the `supervisor_tools` node
(terminal-condition check, `think_tool` acknowledgement, bounded
`ConductResearch` fan-out).  LangGraph state channels are embedded as an
explicit `SupervisorState` record; a node's update dictionary is merged
into the state by the channel reducers.  Modelled from the spec: the
reducer annotations live in the repository's `state.py`, which is not
among the provided sources; spec §3 and §9 give the merge rules — message
and notes channels append, scalar channels replace, and channels absent
from an update keep their previous value. -/

/-- The relevant fields of `Configuration` (`configuration.py` of the
variant, consumed through `Configuration.from_runnable_config`). -/
structure Configuration where
  max_researcher_iterations : Nat
  max_concurrent_research_units : Nat
  allow_clarification : Bool
deriving DecidableEq, Repr

/-- Output state of one researcher-subgraph invocation as consumed by
`supervisor_tools`: a dictionary read with
`observation.get("compressed_research", ...)` and
`observation.get("raw_notes", [])`, so both keys may be absent. -/
structure WorkerOutput where
  compressed_research : Option String
  raw_notes : Option (List String)
deriving DecidableEq, Repr

/-- The supervisor-subgraph state channels touched by the embedded nodes
(`SupervisorState` in `state.py`, plus the telemetry lengths the terminal
branch emits). -/
structure SupervisorState where
  supervisor_messages : List Msg
  research_iterations : Nat
  research_brief : String
  notes : List String
  raw_notes : List String
  compressed_research_length : Nat
  raw_notes_length : Nat
deriving DecidableEq, Repr

/-- Modelled from the spec: `get_notes_from_tool_calls` is defined in the
repository's `utils.py`, which is not among the provided sources.  Spec
§4.2: on terminal exit, "aggregate all delegation results gathered so far
into final notes" — the notes are the contents of the tool-result entries
of the supervisor thread, in order. -/
def get_notes_from_tool_calls (messages : List Msg) : List String :=
  (messages.filter (fun m => decide (m.role = Role.tool))).map (fun m => m.content)

/-- The `ToolMessage` acknowledging one `think_tool` reflection call. -/
def think_tool_message (tc : ToolCall) : Msg :=
  { role := Role.tool
    content := "Reflection recorded: " ++ tc.arg
    name := "think_tool"
    tool_call_id := tc.id }

/-- The `ToolMessage` carrying one admitted delegation's worker result:
`observation.get("compressed_research", "Error synthesizing research
report: Maximum retries exceeded")`. -/
def conduct_tool_message (observation : WorkerOutput) (tc : ToolCall) : Msg :=
  { role := Role.tool
    content := observation.compressed_research.getD compressExhaustedSentinel
    name := tc.name
    tool_call_id := tc.id }

/-- The rejection text synthesized for each delegation beyond the
concurrency cap (the f-string of deep_researcher.py line 337). -/
def overflow_message_content (cap : Nat) : String :=
  "Error: Did not run this research as you have already exceeded the maximum number of concurrent research units. Please try again with "
    ++ toString cap ++ " or fewer research units."

/-- The `ToolMessage` rejecting one over-cap delegation. -/
def overflow_tool_message (cap : Nat) (tc : ToolCall) : Msg :=
  { role := Role.tool
    content := overflow_message_content cap
    name := "ConductResearch"
    tool_call_id := tc.id }

/-- The delegation tool-results of one dispatch round: admitted results
(`zip(tool_results, allowed_conduct_research_calls)`, i.e. pairing worker
outputs with the first `cap` calls by position) followed by one rejection
per overflow call. -/
def conduct_tool_messages (cap : Nat) (tool_results : List WorkerOutput)
    (conduct_research_calls : List ToolCall) : List Msg :=
  List.zipWith conduct_tool_message tool_results (conduct_research_calls.take cap)
    ++ (conduct_research_calls.drop cap).map (overflow_tool_message cap)

/-- `await asyncio.gather(*research_tasks)`: run one worker invocation per
admitted call; if any invocation raises, the whole gather raises.  The
`worker` oracle gives each invocation's outcome. -/
def gatherWorkers (worker : ToolCall → Except String WorkerOutput) :
    List ToolCall → Except String (List WorkerOutput)
  | [] => .ok []
  | c :: cs => do
    let r ← worker c
    let rs ← gatherWorkers worker cs
    pure (r :: rs)

/-- Where `supervisor_tools` routes next: back to the `supervisor` node or
to the subgraph's END. -/
inductive SupGoto where
  | supervisor
  | END
deriving DecidableEq, Repr

/-- `supervisor_tools` (deep_researcher.py lines 225-379), with the
researcher subgraph as oracle `worker`.  Returns the routing target and
the state after merging the node's update into the incoming state.

The terminal branch fires when the iteration counter exceeds the maximum,
the last planning response made no tool calls, or it called
`ResearchComplete`; it emits the aggregated notes and telemetry lengths.
Otherwise `think_tool` calls are acknowledged and `ConductResearch` calls
are dispatched with admission control; if the dispatch raises, the
`except` branch (whose guard is `is_token_limit_exceeded(...) or True`,
hence taken for every exception) exits to END keeping only the notes
derived from the thread — channels absent from that update (`raw_notes`
among them) keep their current value.

(`supervisor_messages[-1]` on an empty thread would raise in Python; the
node is only ever entered right after `supervisor` appended a message, and
the embedding reads the last message with an empty-thread default whose
empty `tool_calls` routes to the terminal branch.) -/
def supervisor_tools (cfg : Configuration) (worker : ToolCall → Except String WorkerOutput)
    (state : SupervisorState) : SupGoto × SupervisorState :=
  let supervisor_messages := state.supervisor_messages
  let research_iterations := state.research_iterations
  let most_recent_message := supervisor_messages.getLastD default
  let exceeded_allowed_iterations : Bool :=
    decide (cfg.max_researcher_iterations < research_iterations)
  let no_tool_calls : Bool := most_recent_message.tool_calls.isEmpty
  let research_complete_tool_call : Bool :=
    most_recent_message.tool_calls.any (fun tc => decide (tc.name = "ResearchComplete"))
  if exceeded_allowed_iterations || no_tool_calls || research_complete_tool_call then
    let final_notes := get_notes_from_tool_calls supervisor_messages
    let raw_notes_str := pyJoin "\n" state.raw_notes
    (SupGoto.END,
      { state with
        notes := final_notes
        compressed_research_length := (pyJoin "\n" final_notes).length
        raw_notes_length := raw_notes_str.length })
  else
    let think_tool_calls :=
      most_recent_message.tool_calls.filter (fun tc => decide (tc.name = "think_tool"))
    let think_msgs := think_tool_calls.map think_tool_message
    let conduct_research_calls :=
      most_recent_message.tool_calls.filter (fun tc => decide (tc.name = "ConductResearch"))
    if conduct_research_calls.isEmpty then
      (SupGoto.supervisor,
        { state with supervisor_messages := supervisor_messages ++ think_msgs })
    else
      let allowed := conduct_research_calls.take cfg.max_concurrent_research_units
      match gatherWorkers worker allowed with
      | .error _ =>
        (SupGoto.END,
          { state with notes := get_notes_from_tool_calls supervisor_messages })
      | .ok tool_results =>
        let conduct_msgs :=
          conduct_tool_messages cfg.max_concurrent_research_units tool_results
            conduct_research_calls
        let raw_notes_concat :=
          pyJoin "\n" (tool_results.map (fun o => pyJoin "\n" (o.raw_notes.getD [])))
        let state1 :=
          if raw_notes_concat ≠ "" then
            { state with
              raw_notes := state.raw_notes ++ [raw_notes_concat]
              raw_notes_length := raw_notes_concat.length }
          else state
        (SupGoto.supervisor,
          { state1 with
            supervisor_messages := state1.supervisor_messages ++ think_msgs ++ conduct_msgs })

/-- The `supervisor` node (deep_researcher.py lines 178-221): one planning
LLM call (oracle `plan`, free to answer anything given the thread),
appended to the thread, incrementing `research_iterations`. -/
def supervisor (plan : List Msg → Msg) (state : SupervisorState) : SupervisorState :=
  { state with
    supervisor_messages := state.supervisor_messages ++ [plan state.supervisor_messages]
    research_iterations := state.research_iterations + 1 }

/-- The supervisor subgraph's loop (`START → supervisor → supervisor_tools
→ supervisor → ...`), run with `fuel` as an upper bound on loop-body
executions so the embedding is total.  Returns the number of
`supervisor`-body executions performed and `some finalState` if the
terminal exit was taken within `fuel` bodies (`none` means fuel ran out
first). -/
def supervisor_loop (cfg : Configuration) (plan : List Msg → Msg)
    (worker : ToolCall → Except String WorkerOutput) :
    Nat → SupervisorState → Nat × Option SupervisorState
  | 0, _ => (0, none)
  | fuel + 1, state =>
    let s1 := supervisor plan state
    match supervisor_tools cfg worker s1 with
    | (SupGoto.END, s2) => (1, some s2)
    | (SupGoto.supervisor, s2) =>
      let r := supervisor_loop cfg plan worker fuel s2
      (r.1 + 1, r.2)

/-! ## Self-healing agent (self_healing_agent.py)

`SelfHealingAgent.execute_code` writes the code to a file, runs a shell
command under a 30-second timeout, and packages the outcome; `self_heal`
wraps it in the bounded execute → classify → patch → retry loop.  The
filesystem/subprocess environment is abstracted as an `ExecEvent` oracle:
what the write and the command run do on a given invocation. -/

/-- `ErrorType` (self_healing_agent.py lines 22-32). -/
inductive ErrorType where
  | SYNTAX_ERROR
  | IMPORT_ERROR
  | TYPE_ERROR
  | NAME_ERROR
  | ATTRIBUTE_ERROR
  | TEST_FAILURE
  | RUNTIME_ERROR
  | UNKNOWN
deriving DecidableEq, Repr, Inhabited

/-- `ExecutionResult` (self_healing_agent.py lines 35-43).  `error` is
`Option` because the dataclass field is `str | None`. -/
structure ExecutionResult where
  success : Bool
  output : String
  error : Option String
  error_type : Option ErrorType
  exit_code : Int
deriving DecidableEq, Repr

/-- `HealingAttempt` (self_healing_agent.py lines 46-53). -/
structure HealingAttempt where
  attempt_number : Nat
  error_context : String
  patch_generated : String
  result : ExecutionResult
deriving DecidableEq, Repr

/-- What the environment does on one `execute_code` invocation:
the initial `file_path.write_text(code)` raises (it sits *outside* the
`try` block), or the command completes with a return code and
stdout/stderr, or `subprocess.run` hits the 30s timeout, or it raises some
other exception. -/
inductive ExecEvent where
  | writeFails (msg : String)
  | completes (returncode : Int) (stdout stderr : String)
  | timeout
  | raises (msg : String)
deriving DecidableEq, Repr

/-- `re.search(r"name .* is not defined", text)`: since `.` does not match
a newline and both literal halves are newline-free, the pattern matches
iff some line has an occurrence of `"name "` followed (on the same line)
by `" is not defined"`; equivalently the suffix after the *first*
`"name "` of some line contains `" is not defined"`. -/
def nameNotDefinedSearch (s : String) : Bool :=
  (splitOnChar '\n' s.data).any fun line =>
    match afterFirst "name ".data line with
    | some suffixPart => listContainsSub " is not defined".data suffixPart
    | none => false

/-- `SelfHealingAgent._classify_error` (self_healing_agent.py lines
153-182): lowercase the message, then first matching category of the
ordered pattern table wins; empty message and no match give `UNKNOWN`. -/
def _classify_error (error_message : String) : ErrorType :=
  if error_message = "" then ErrorType.UNKNOWN
  else
    let e := pyToLower error_message
    if pyContains e "syntaxerror" || pyContains e "invalid syntax" then
      ErrorType.SYNTAX_ERROR
    else if pyContains e "importerror" || pyContains e "modulenotfounderror"
        || pyContains e "no module named" then
      ErrorType.IMPORT_ERROR
    else if pyContains e "typeerror" then
      ErrorType.TYPE_ERROR
    else if pyContains e "nameerror" || nameNotDefinedSearch e then
      ErrorType.NAME_ERROR
    else if pyContains e "attributeerror" then
      ErrorType.ATTRIBUTE_ERROR
    else if pyContains e "failed" || pyContains e "assertion"
        || pyContains e "assertionerror" then
      ErrorType.TEST_FAILURE
    else
      ErrorType.UNKNOWN

/-- `SelfHealingAgent.execute_code` (self_healing_agent.py lines 86-151)
under environment behavior `event`.  `.error` models an exception leaving
the method: only the file write can produce one, because it is executed
before the `try` block that converts `subprocess` failures into
`ExecutionResult`s.  On completion, `error` is the captured stderr only on
failure, and `error_type` is classified only when that stderr is truthy
(non-empty). -/
def execute_code (event : ExecEvent) : Except String ExecutionResult :=
  match event with
  | .writeFails msg => .error msg
  | .completes returncode stdout stderr =>
    let success : Bool := decide (returncode = 0)
    let error : Option String := if success then none else some stderr
    let error_type : Option ErrorType :=
      match error with
      | some e => if e ≠ "" then some (_classify_error e) else none
      | none => none
    .ok
      { success := success
        output := stdout
        error := error
        error_type := error_type
        exit_code := returncode }
  | .timeout =>
    .ok
      { success := false
        output := ""
        error := some "Execution timeout (30s)"
        error_type := some ErrorType.RUNTIME_ERROR
        exit_code := -1 }
  | .raises msg =>
    .ok
      { success := false
        output := ""
        error := some msg
        error_type := some ErrorType.UNKNOWN
        exit_code := -1 }

/-- `MAX_RETRIES` (self_healing_agent.py line 67). -/
def MAX_RETRIES : Nat := 3

/-- The code-fence stripping `generate_patch` applies to the stripped LLM
response (self_healing_agent.py lines 243-251): drop a leading
"```python\n" (resp. "```\n") when the response starts with "```python"
(resp. "```"), then drop a trailing "\n```"; the input is already
whitespace-trimmed, so the regex anchors reduce to plain ends. -/
def stripCodeFences (s : String) : String :=
  let dropHead (t p : String) : String :=
    if pyStartsWith t p then pyDrop t p.length else t
  let dropTail (t : String) : String :=
    if pyEndsWith t "\n```" then pyDropRight t "\n```".length else t
  if pyStartsWith s "```python" then dropTail (dropHead s "```python\n")
  else if pyStartsWith s "```" then dropTail (dropHead s "```\n")
  else s

/-- `SelfHealingAgent.generate_patch` (self_healing_agent.py lines 184-254)
with the LLM as oracle: the oracle receives the same varying data the
prompt interpolates (attempt number, original code, error log, error
type) and returns the raw response content, which is stripped and
de-fenced. -/
def generate_patch (llm : Nat → String → String → ErrorType → String)
    (attempt_number : Nat) (original_code error_log : String)
    (error_type : ErrorType) : String :=
  stripCodeFences (pyStrip (llm attempt_number original_code error_log error_type))

/-- The dictionary `self_heal` returns.  Keys absent from a branch's
dictionary in Python (`history` on the zero-attempt success, `last_error`
everywhere but exhaustion) are modelled as `[]` / `none`. -/
structure HealResult where
  success : Bool
  final_code : String
  attempts : Nat
  history : List HealingAttempt
  message : String
  last_error : Option String
deriving DecidableEq, Repr

/-- The `for attempt in range(1, MAX_RETRIES + 1)` loop of `self_heal`:
`left` is the number of loop iterations remaining, `attempt` the Python
loop variable, `result` the latest (failed) execution result.
`execEvent k` is the environment behavior of the `k`-th `execute_code`
call (the initial execution is call `0`, the re-execution of the
`attempt`-th patch is call `attempt`); an exception from `execute_code`
propagates. -/
def self_heal_go (execEvent : Nat → ExecEvent)
    (llm : Nat → String → String → ErrorType → String) :
    Nat → Nat → String → ExecutionResult → List HealingAttempt →
    Except String HealResult
  | 0, _, current_code, result, history =>
    .ok
      { success := false
        final_code := current_code
        attempts := MAX_RETRIES
        history := history
        message := "Failed to heal code after " ++ toString MAX_RETRIES ++ " attempts"
        last_error := result.error }
  | left + 1, attempt, current_code, result, history =>
    let patched_code :=
      generate_patch llm attempt current_code (result.error.getD "")
        (result.error_type.getD ErrorType.UNKNOWN)
    let healing_attempt : HealingAttempt :=
      { attempt_number := attempt
        error_context := result.error.getD ""
        patch_generated := patched_code
        result := result }
    let history := history ++ [healing_attempt]
    match execute_code (execEvent attempt) with
    | .error e => .error e
    | .ok r =>
      if r.success then
        .ok
          { success := true
            final_code := patched_code
            attempts := attempt
            history := history
            message := "Code healed successfully after " ++ toString attempt ++ " attempt(s)"
            last_error := none }
      else
        self_heal_go execEvent llm left (attempt + 1) patched_code r history

/-- `SelfHealingAgent.self_heal` (self_healing_agent.py lines 257-335):
initial execution, early success return, then the bounded healing loop. -/
def self_heal (execEvent : Nat → ExecEvent)
    (llm : Nat → String → String → ErrorType → String) (code : String) :
    Except String HealResult :=
  match execute_code (execEvent 0) with
  | .error e => .error e
  | .ok result =>
    if result.success then
      .ok
        { success := true
          final_code := code
          attempts := 0
          history := []
          message := "Code executed successfully on first attempt"
          last_error := none }
    else
      self_heal_go execEvent llm MAX_RETRIES 1 code result []


/-! ## Researcher tool fan-out (deep_researcher.py lines 461-466, 508-524)

`researcher_tools` executes every tool call of the last researcher message
concurrently; `execute_tool_safely` wraps each invocation so an exception
becomes a textual observation.  Tools are embedded as a name-indexed
registry of fallible functions from the call argument to result text. -/

/-- `execute_tool_safely` (deep_researcher.py lines 462-466). -/
def execute_tool_safely (tool : String → Except String String) (args : String) : String :=
  match tool args with
  | .ok result => result
  | .error e => "Error executing tool: " ++ e

/-- The observation list of one `OBSERVING` step: `asyncio.gather` over
`execute_tool_safely` per tool call, results by position.
`tools_by_name` is the registry built from `get_all_tools(config)`. -/
def researcher_tool_observations (tools_by_name : String → (String → Except String String))
    (tool_calls : List ToolCall) : List String :=
  tool_calls.map fun tool_call =>
    execute_tool_safely (tools_by_name tool_call.name) tool_call.arg

/-- The `ToolMessage`s built from the observations
(`zip(observations, tool_calls, strict=True)`, pairing by position). -/
def researcher_tool_outputs (tools_by_name : String → (String → Except String String))
    (tool_calls : List ToolCall) : List Msg :=
  List.zipWith
    (fun observation tool_call =>
      { role := Role.tool
        content := observation
        name := tool_call.name
        tool_call_id := tool_call.id : Msg })
    (researcher_tool_observations tools_by_name tool_calls) tool_calls

/-! ## Final synthesizer (`final_report_generation`, deep_researcher.py lines 645-757) -/

/-- The character budget set on the first length-limit retry:
`findings_token_limit = model_token_limit * 4`. -/
def initial_findings_budget (model_token_limit : Nat) : Nat :=
  model_token_limit * 4

/-- The character budget set on every later length-limit retry:
`findings_token_limit = int(findings_token_limit * 0.9)`.  For the
magnitudes a `Nat` budget can take here, Python's float product
`b * 0.9` truncates to `⌊9·b/10⌋` (the nearest double to `0.9` is
slightly above `9/10`, so the product never rounds below an exact
multiple, and the fractional gap of at least `1/10` absorbs the upward
error), so the embedding uses exact floor division. -/
def next_findings_budget (findings_token_limit : Nat) : Nat :=
  findings_token_limit * 9 / 10

/-- How `final_report_generation` can end. -/
inductive FinalReportOutcome where
  | report (content : String)
  | noTokenLimitInfo
  | fatalOtherError
  | maxRetriesExceeded
deriving DecidableEq, Repr

/-- The `while current_retry <= max_retries` loop of
`final_report_generation` with its LLM adapter as oracle `llm` and the
model-token-limit lookup result as `model_token_limit`.  `remaining` is
the number of loop iterations the `current_retry ≤ 3` guard still allows
(4 on entry); on a length-limit failure the budget is set — from the
token limit on the first failure (when no budget exists yet: in the
source `current_retry == 1` exactly when `findings_token_limit` is still
`None`), from `next_findings_budget` on later ones — and `findings` is
re-truncated to it; a non-length failure returns a fatal error
immediately. -/
def final_report_loop (llm : Nat → LLMOutcome) (model_token_limit : Option Nat) :
    Nat → Nat → String → Option Nat → FinalReportOutcome
  | 0, _, _, _ => .maxRetriesExceeded
  | remaining + 1, i, findings, budget =>
    match llm i with
    | .ok content => .report content
    | .otherError => .fatalOtherError
    | .tokenLimitError =>
      match budget with
      | none =>
        match model_token_limit with
        | none => .noTokenLimitInfo
        | some limit =>
          let b := initial_findings_budget limit
          final_report_loop llm model_token_limit remaining (i + 1) (pyTake findings b) (some b)
      | some b0 =>
        let b := next_findings_budget b0
        final_report_loop llm model_token_limit remaining (i + 1) (pyTake findings b) (some b)

/-- `final_report_generation`'s retry portion: `max_retries = 3`,
`current_retry = 0`, `findings_token_limit = None`, so the guard admits
four loop iterations. -/
def final_report_generation (llm : Nat → LLMOutcome) (model_token_limit : Option Nat)
    (findings : String) : FinalReportOutcome :=
  final_report_loop llm model_token_limit 4 0 findings none

/-! ## Scope resolver (`clarify_with_user`, deep_researcher.py lines 62-115)
and the main pipeline wiring (lines 748-780) -/

/-- The structured decision `ClarifyWithUser` returned by the clarification
LLM call. -/
structure ClarifyWithUser where
  need_clarification : Bool
  question : String
  verification : String
deriving DecidableEq, Repr

/-- Nodes of the main deep-researcher graph (`deep_researcher_builder`),
plus its END. -/
inductive MainNode where
  | clarify_with_user
  | write_research_brief
  | research_supervisor
  | final_report_generation
  | END
deriving DecidableEq, Repr

/-- `clarify_with_user` with the clarification LLM call as oracle
`decision` (only consulted when clarification is enabled): returns the
`Command`'s routing target together with the messages its update appends
to the thread. -/
def clarify_with_user (cfg : Configuration) (decision : ClarifyWithUser) :
    MainNode × List Msg :=
  if !cfg.allow_clarification then
    (MainNode.write_research_brief, [])
  else if decision.need_clarification then
    (MainNode.END, [{ role := Role.ai, content := decision.question }])
  else
    (MainNode.write_research_brief, [{ role := Role.ai, content := decision.verification }])

/-- The static edges of the main graph for the nodes after
`clarify_with_user`: `write_research_brief`'s `Command` goes to
`research_supervisor`, `add_edge("research_supervisor",
"final_report_generation")`, `add_edge("final_report_generation", END)`. -/
def main_graph_next : MainNode → MainNode
  | .clarify_with_user => .clarify_with_user
  | .write_research_brief => .research_supervisor
  | .research_supervisor => .final_report_generation
  | .final_report_generation => .END
  | .END => .END

/-- The sequence of nodes the main graph executes from (and including) a
given node, following the static edges until END.  (`fuel`-free: the edge
relation is acyclic with at most four steps.) -/
def main_graph_trace : MainNode → List MainNode
  | .END => []
  | .final_report_generation => [.final_report_generation]
  | .research_supervisor => [.research_supervisor, .final_report_generation]
  | .write_research_brief =>
    [.write_research_brief, .research_supervisor, .final_report_generation]
  | .clarify_with_user => [.clarify_with_user]

/-- A full pipeline run from `START → clarify_with_user`: the nodes
executed, and the messages appended to the outgoing state by
`clarify_with_user` itself. -/
def pipeline_run (cfg : Configuration) (decision : ClarifyWithUser) :
    List MainNode × List Msg :=
  let (goto, msgs) := clarify_with_user cfg decision
  (MainNode.clarify_with_user :: main_graph_trace goto, msgs)

/-! ## Sample inputs used by the concrete instantiations -/

/-- An LLM-failure sequence: one token-limit failure, then other errors. -/
def tokenLimitThenOthers : Nat → LLMOutcome :=
  fun i => if i = 0 then LLMOutcome.tokenLimitError else LLMOutcome.otherError

/-- An environment in which every command run raises. -/
def alwaysRaisesEnv : Nat → ExecEvent :=
  fun _ => ExecEvent.raises "boom"

/-- A patch LLM that always answers the same code. -/
def constantPatchLLM : Nat → String → String → ErrorType → String :=
  fun _ _ _ _ => "fix"

/-- A planning response that always delegates one research unit. -/
def alwaysDelegatePlan : List Msg → Msg :=
  fun _ =>
    { role := Role.ai
      content := ""
      tool_calls := [{ name := "ConductResearch", arg := "topic", id := "call-1" }] }

/-- A worker oracle that always succeeds with an empty output state. -/
def trivialWorker : ToolCall → Except String WorkerOutput :=
  fun _ => Except.ok { compressed_research := none, raw_notes := none }

/-- A worker oracle answering a recognizable result per delegated topic. -/
def namedWorker : ToolCall → WorkerOutput :=
  fun tc => { compressed_research := some ("result for " ++ tc.arg), raw_notes := some [] }

/-- A fresh supervisor state, as `write_research_brief` initializes it
(no iterations consumed yet). -/
def freshSupervisorState : SupervisorState :=
  { supervisor_messages := []
    research_iterations := 0
    research_brief := ""
    notes := []
    raw_notes := []
    compressed_research_length := 0
    raw_notes_length := 0 }

/-- A supervisor state mid-run: one delegation requested by the last
planning response, some raw notes already accumulated. -/
def midRunSupervisorState : SupervisorState :=
  { supervisor_messages :=
      [{ role := Role.tool, content := "earlier note", name := "ConductResearch"
         tool_call_id := "call-0" },
       { role := Role.ai
         content := ""
         tool_calls := [{ name := "ConductResearch", arg := "topic", id := "call-1" }] }]
    research_iterations := 1
    research_brief := "the brief"
    notes := []
    raw_notes := ["earlier raw"]
    compressed_research_length := 0
    raw_notes_length := 0 }

/-- Five delegation requests for the oversubscription scenario. -/
def fiveCalls : List ToolCall :=
  [{ name := "ConductResearch", arg := "t1", id := "id1" },
   { name := "ConductResearch", arg := "t2", id := "id2" },
   { name := "ConductResearch", arg := "t3", id := "id3" },
   { name := "ConductResearch", arg := "t4", id := "id4" },
   { name := "ConductResearch", arg := "t5", id := "id5" }]

/-- The result `self_heal` produces when every execution raises a
`"boom"` exception inside `subprocess.run` and the patch LLM always
answers `"fix"`. -/
def exhaustedHealResult : HealResult :=
  { success := false
    final_code := "fix"
    attempts := 3
    history :=
      [{ attempt_number := 1, error_context := "boom", patch_generated := "fix"
         result := { success := false, output := "", error := some "boom"
                     error_type := some ErrorType.UNKNOWN, exit_code := -1 } },
       { attempt_number := 2, error_context := "boom", patch_generated := "fix"
         result := { success := false, output := "", error := some "boom"
                     error_type := some ErrorType.UNKNOWN, exit_code := -1 } },
       { attempt_number := 3, error_context := "boom", patch_generated := "fix"
         result := { success := false, output := "", error := some "boom"
                     error_type := some ErrorType.UNKNOWN, exit_code := -1 } }]
    message := "Failed to heal code after 3 attempts"
    last_error := some "boom" }

/-- A small configuration: two iterations allowed, concurrency cap 2. -/
def smallCfg : Configuration :=
  { max_researcher_iterations := 2
    max_concurrent_research_units := 2
    allow_clarification := true }

/-- A worker oracle that always raises. -/
def failingWorker : ToolCall → Except String WorkerOutput :=
  fun _ => Except.error "boom"

/-- A registry with one well-behaved and one raising tool. -/
def mixedToolRegistry : String → (String → Except String String) :=
  fun name =>
    if name = "tavily_search" then fun args => Except.ok ("found: " ++ args)
    else fun _ => Except.error "socket closed"

/-- Two tool calls, the second of which will hit the raising tool. -/
def twoToolCalls : List ToolCall :=
  [{ name := "tavily_search", arg := "lean", id := "tc1" },
   { name := "broken_tool", arg := "x", id := "tc2" }]

/-! ## Helper lemmas -/

/-- Zipping a mapped copy of a list with the list itself is a map. -/
theorem zipWith_map_self {α β γ : Type} (f : β → α → γ) (g : α → β) :
    ∀ l : List α, List.zipWith f (l.map g) l = l.map (fun a => f (g a) a) := by
  intro l
  induction l with
  | nil => rfl
  | cons a as ih => simp [ih]

/-- `pyJoin "\n"` of a list with a non-empty element is non-empty. -/
theorem pyJoin_ne_empty (l : List String) (x : String) (hx : x ∈ l) (hne : x ≠ "") :
    pyJoin "\n" l ≠ "" := by
  induction l with
  | nil => cases hx
  | cons a as ih =>
    cases as with
    | nil =>
      have hax : x = a := List.mem_singleton.mp hx
      subst hax
      simpa [pyJoin] using hne
    | cons b bs =>
      intro hcontra
      have hlen := congrArg String.length hcontra
      simp [pyJoin, String.length_append] at hlen
      exact absurd hlen.1.2 (by decide)

/-! ## C10 — totality of `execute_code` -/

/-- C10 counterexample: `execute_code` is *not* total over every
environment behavior — `file_path.write_text(code)` sits outside the
`try` block, so a failing file write propagates as an exception instead
of an `ExecutionResult`. -/
theorem execute_code_write_failure_raises :
    execute_code (ExecEvent.writeFails "read-only file system") =
      Except.error "read-only file system" := by
  rfl

/-- C10 (amended): provided the initial file write succeeds,
`execute_code` returns an `ExecutionResult` and never raises; a command
exceeding the 30-second timeout yields `success=False`, empty output,
error `"Execution timeout (30s)"`, `RUNTIME_ERROR` and exit code `-1`;
any other internal exception yields `success=False`, `UNKNOWN` and exit
code `-1`; a zero process exit code yields `success=True` with
`error=None`. -/
theorem execute_code_total (event : ExecEvent)
    (hw : ∀ m, event ≠ ExecEvent.writeFails m) :
    (∃ r, execute_code event = Except.ok r)
    ∧ execute_code ExecEvent.timeout =
        Except.ok
          { success := false, output := "", error := some "Execution timeout (30s)"
            error_type := some ErrorType.RUNTIME_ERROR, exit_code := -1 }
    ∧ (∀ m, execute_code (ExecEvent.raises m) =
        Except.ok
          { success := false, output := "", error := some m
            error_type := some ErrorType.UNKNOWN, exit_code := -1 })
    ∧ (∀ stdout stderr, execute_code (ExecEvent.completes 0 stdout stderr) =
        Except.ok
          { success := true, output := stdout, error := none
            error_type := none, exit_code := 0 }) := by
  refine ⟨?_, rfl, fun m => rfl, fun stdout stderr => rfl⟩
  cases event with
  | writeFails m => exact absurd rfl (hw m)
  | completes rc stdout stderr => exact ⟨_, rfl⟩
  | timeout => exact ⟨_, rfl⟩
  | raises m => exact ⟨_, rfl⟩

/-- C10 witness: the amended theorem applied at the timeout behavior. -/
theorem execute_code_total_witness :
    (∀ m, ExecEvent.timeout ≠ ExecEvent.writeFails m)
    ∧ ((∃ r, execute_code ExecEvent.timeout = Except.ok r)
      ∧ execute_code ExecEvent.timeout =
          Except.ok
            { success := false, output := "", error := some "Execution timeout (30s)"
              error_type := some ErrorType.RUNTIME_ERROR, exit_code := -1 }
      ∧ (∀ m, execute_code (ExecEvent.raises m) =
          Except.ok
            { success := false, output := "", error := some m
              error_type := some ErrorType.UNKNOWN, exit_code := -1 })
      ∧ (∀ stdout stderr, execute_code (ExecEvent.completes 0 stdout stderr) =
          Except.ok
            { success := true, output := stdout, error := none
              error_type := none, exit_code := 0 })) :=
  ⟨fun m h => ExecEvent.noConfusion h,
    execute_code_total ExecEvent.timeout (fun m h => ExecEvent.noConfusion h)⟩

/-! ## C6 — progressive truncation in the final synthesizer -/

/-- C6 counterexample: with a model token limit of 3 the first budget is
12 characters, the next is `int(12 * 0.9) = 10` — and 10 is *not* exactly
90% of 12 (that would be 10.8): the subsequent budget is the floor of
90% of the prior one, not exactly 90%. -/
theorem truncation_not_exact_ninety :
    initial_findings_budget 3 = 12
    ∧ next_findings_budget (initial_findings_budget 3) = 10
    ∧ 10 * next_findings_budget (initial_findings_budget 3) ≠
        9 * initial_findings_budget 3 := by
  decide

/-- C6 (amended): in `final_report_generation`, the first length-limit
retry truncates to a budget of 4 times the model token limit; every
subsequent length-limit retry re-truncates to `⌊90%⌋` of the previous
budget, which is strictly smaller whenever the previous budget is
positive — until either success or the retry cap is hit. -/
theorem truncation_monotonicity :
    (∀ limit, initial_findings_budget limit = limit * 4)
    ∧ (∀ b, 0 < b → next_findings_budget b < b ∧ next_findings_budget b = b * 9 / 10)
    ∧ (∀ llm model_token_limit remaining i findings b,
        llm i = LLMOutcome.tokenLimitError →
        final_report_loop llm model_token_limit (remaining + 1) i findings (some b) =
          final_report_loop llm model_token_limit remaining (i + 1)
            (pyTake findings (next_findings_budget b)) (some (next_findings_budget b)))
    ∧ (∀ llm remaining i findings limit,
        llm i = LLMOutcome.tokenLimitError →
        final_report_loop llm (some limit) (remaining + 1) i findings none =
          final_report_loop llm (some limit) remaining (i + 1)
            (pyTake findings (initial_findings_budget limit))
            (some (initial_findings_budget limit))) := by
  refine ⟨fun limit => rfl, fun b hb => ⟨?_, rfl⟩, ?_, ?_⟩
  · have : b * 9 < b * 10 := by omega
    calc next_findings_budget b = b * 9 / 10 := rfl
      _ < b := by omega
  · intro llm model_token_limit remaining i findings b h
    simp [final_report_loop, h]
  · intro llm remaining i findings limit h
    simp [final_report_loop, h]

/-- C6 witness: the amended theorem applied at budget 10 and at a
concrete always-length-limited run with token limit 3. -/
theorem truncation_monotonicity_witness :
    (0 < 10 ∧ next_findings_budget 10 < 10 ∧ next_findings_budget 10 = 10 * 9 / 10)
    ∧ ((fun _ => LLMOutcome.tokenLimitError) (1 : Nat) = LLMOutcome.tokenLimitError
      ∧ final_report_loop (fun _ => LLMOutcome.tokenLimitError) (some 3) 3 1 "0123456789abc"
            (some 12) =
          final_report_loop (fun _ => LLMOutcome.tokenLimitError) (some 3) 2 2
            (pyTake "0123456789abc" (next_findings_budget 12)) (some (next_findings_budget 12))) :=
  ⟨⟨by decide, (truncation_monotonicity.2.1 10 (by decide)).1,
      (truncation_monotonicity.2.1 10 (by decide)).2⟩,
    ⟨rfl,
      truncation_monotonicity.2.2.1 (fun _ => LLMOutcome.tokenLimitError) (some 3) 2 1
        "0123456789abc" 12 rfl⟩⟩

/-! ## C4 — the Compressor never fails outward -/

/-- The compression loop only consults the LLM oracle on the indices its
remaining attempts allow. -/
theorem compress_loop_oracle_local (llm llm' : Nat → LLMOutcome) :
    ∀ (left i : Nat) (messages : List Msg),
      (∀ j, i ≤ j → j < i + left → llm j = llm' j) →
      compress_loop llm left i messages = compress_loop llm' left i messages := by
  intro left
  induction left with
  | zero => intro i messages _; rfl
  | succ n ih =>
    intro i messages hagree
    have hi : llm i = llm' i := hagree i le_rfl (by omega)
    simp only [compress_loop, hi]
    cases llm' i with
    | ok content => rfl
    | tokenLimitError =>
      exact ih (i + 1) (remove_up_to_last_ai_message messages)
        (fun j h1 h2 => hagree j (by omega) (by omega))
    | otherError =>
      exact ih (i + 1) messages (fun j h1 h2 => hagree j (by omega) (by omega))

/-- When every attempt fails, the compression loop returns the sentinel
text together with the raw notes of the thread remaining at exhaustion. -/
theorem compress_loop_exhausted (llm : Nat → LLMOutcome)
    (hfail : ∀ i c, llm i ≠ LLMOutcome.ok c) :
    ∀ (left i : Nat) (messages : List Msg),
      ∃ remaining, compress_loop llm left i messages =
        { compressed_research := compressExhaustedSentinel
          raw_notes := [raw_notes_from remaining] } := by
  intro left
  induction left with
  | zero => intro i messages; exact ⟨messages, rfl⟩
  | succ n ih =>
    intro i messages
    simp only [compress_loop]
    cases hx : llm i with
    | ok content => exact absurd hx (hfail i content)
    | tokenLimitError => exact ih (i + 1) (remove_up_to_last_ai_message messages)
    | otherError => exact ih (i + 1) messages

/-- C4: `compress_research` never raises past its own boundary (it is a
total function of the failure sequence); it returns within at most 3
attempts — its value only depends on the first three oracle answers —
and on exhaustion of all attempts the condensed text is the literal
sentinel `"Error synthesizing research report: Maximum retries exceeded"`
together with raw notes computed from the thread state remaining at that
point. -/
theorem compress_research_never_fails_outward :
    (∀ human_msg (llm llm' : Nat → LLMOutcome) messages,
      (∀ i, i < 3 → llm i = llm' i) →
      compress_research human_msg llm messages = compress_research human_msg llm' messages)
    ∧ (∀ human_msg (llm : Nat → LLMOutcome) messages,
      (∀ i c, llm i ≠ LLMOutcome.ok c) →
      ∃ remaining, compress_research human_msg llm messages =
        { compressed_research := compressExhaustedSentinel
          raw_notes := [raw_notes_from remaining] }) := by
  constructor
  · intro human_msg llm llm' messages hagree
    exact compress_loop_oracle_local llm llm' 3 0 _ (fun j h1 h2 => hagree j (by omega))
  · intro human_msg llm messages hfail
    exact compress_loop_exhausted llm hfail 3 0 _

/-- C4 witness: the theorem applied to the all-other-errors failure
sequence on a one-message thread. -/
theorem compress_research_never_fails_outward_witness :
    (compress_research "compress now" (fun _ => LLMOutcome.otherError)
        [{ role := Role.ai, content := "x" }] =
      compress_research "compress now" (fun _ => LLMOutcome.otherError)
        [{ role := Role.ai, content := "x" }])
    ∧ (∃ remaining,
        compress_research "compress now" (fun _ => LLMOutcome.otherError)
            [{ role := Role.ai, content := "x" }] =
          { compressed_research := compressExhaustedSentinel
            raw_notes := [raw_notes_from remaining] }) :=
  ⟨compress_research_never_fails_outward.1 "compress now" (fun _ => LLMOutcome.otherError)
      (fun _ => LLMOutcome.otherError) [{ role := Role.ai, content := "x" }]
      (fun i _ => rfl),
    compress_research_never_fails_outward.2 "compress now" (fun _ => LLMOutcome.otherError)
      [{ role := Role.ai, content := "x" }] (fun i c h => LLMOutcome.noConfusion h)⟩

/-! ## C5 — raw-notes preservation -/

/-- C5 counterexample: the input thread holds one assistant message with
non-empty content `"x"`, the first attempt fails with a token-limit error
(removing that message and everything after it from the thread), the
remaining attempts fail otherwise — compression exhausts all attempts and
the returned raw-notes string is empty. -/
theorem compress_raw_notes_can_be_empty :
    tokenLimitThenOthers 0 = LLMOutcome.tokenLimitError
    ∧ tokenLimitThenOthers 1 = LLMOutcome.otherError
    ∧ tokenLimitThenOthers 2 = LLMOutcome.otherError
    ∧ ({ role := Role.ai, content := "x" } : Msg).role = Role.ai
    ∧ ({ role := Role.ai, content := "x" } : Msg).content ≠ ""
    ∧ compress_research "compress now" tokenLimitThenOthers
        [{ role := Role.ai, content := "x" }] =
      { compressed_research := compressExhaustedSentinel, raw_notes := [""] } := by
  decide

/-- With an all-other-errors failure sequence the compression loop leaves
the thread untouched and exhausts on it. -/
theorem compress_loop_other_errors (llm : Nat → LLMOutcome)
    (hother : ∀ i, llm i = LLMOutcome.otherError) :
    ∀ (left i : Nat) (messages : List Msg),
      compress_loop llm left i messages =
        { compressed_research := compressExhaustedSentinel
          raw_notes := [raw_notes_from messages] } := by
  intro left
  induction left with
  | zero => intro i messages; rfl
  | succ n ih =>
    intro i messages
    simp only [compress_loop, hother i]
    exact ih (i + 1) messages

/-- C5 (amended): for every Compressor failure sequence that contains no
token-limit failure (so no messages are removed from the thread between
attempts), the returned raw-notes string is non-empty whenever the input
thread contained at least one tool or assistant message with non-empty
content.  (With token-limit truncation in between, the counterexample
shows the raw-notes string can come out empty.) -/
theorem compress_raw_notes_preserved (human_msg : String) (llm : Nat → LLMOutcome)
    (messages : List Msg)
    (hfail : ∀ i c, llm i ≠ LLMOutcome.ok c)
    (hnoTL : ∀ i, llm i ≠ LLMOutcome.tokenLimitError)
    (hsome : ∃ m ∈ messages, (m.role = Role.tool ∨ m.role = Role.ai) ∧ m.content ≠ "") :
    ∃ s, (compress_research human_msg llm messages).raw_notes = [s] ∧ s ≠ "" := by
  have hother : ∀ i, llm i = LLMOutcome.otherError := by
    intro i
    cases hx : llm i with
    | ok content => exact absurd hx (hfail i content)
    | tokenLimitError => exact absurd hx (hnoTL i)
    | otherError => rfl
  have hrun := compress_loop_other_errors llm hother 3 0
    (messages ++ [{ role := Role.human, content := human_msg }])
  refine ⟨raw_notes_from (messages ++ [{ role := Role.human, content := human_msg }]),
    ?_, ?_⟩
  · simp only [compress_research, hrun]
  · obtain ⟨m, hmem, hrole, hcontent⟩ := hsome
    apply pyJoin_ne_empty _ m.content _ hcontent
    apply List.mem_map_of_mem
    rw [List.mem_filter]
    exact ⟨List.mem_append_left _ hmem, by simpa using hrole⟩

/-- C5 witness: the amended theorem applied to a one-tool-message thread
under the all-other-errors failure sequence. -/
theorem compress_raw_notes_preserved_witness :
    ∃ s, (compress_research "compress now" (fun _ => LLMOutcome.otherError)
        [{ role := Role.tool, content := "a finding" }]).raw_notes = [s] ∧ s ≠ "" :=
  compress_raw_notes_preserved "compress now" (fun _ => LLMOutcome.otherError)
    [{ role := Role.tool, content := "a finding" }]
    (fun i c h => LLMOutcome.noConfusion h)
    (fun i h => LLMOutcome.noConfusion h)
    ⟨{ role := Role.tool, content := "a finding" }, by simp, Or.inl rfl, by simp⟩

/-! ## C8 — tool-call fan-out isolation -/

/-- The fan-out is a per-call map: each observation depends only on its
own call. -/
theorem researcher_tool_outputs_eq_map
    (tools_by_name : String → (String → Except String String)) (tool_calls : List ToolCall) :
    researcher_tool_outputs tools_by_name tool_calls =
      tool_calls.map (fun tool_call =>
        { role := Role.tool
          content := execute_tool_safely (tools_by_name tool_call.name) tool_call.arg
          name := tool_call.name
          tool_call_id := tool_call.id : Msg }) := by
  unfold researcher_tool_outputs researcher_tool_observations
  exact zipWith_map_self _ _ tool_calls

/-- C8: in the Worker Agent's OBSERVING step, one tool result is produced
per requested call and matched to it by position; a call whose tool
invocation succeeds gets its normal result as the observation, and a call
whose tool invocation raises gets the textual observation
`"Error executing tool: "` followed by the exception message — the
exception neither propagates nor disturbs the sibling calls. -/
theorem tool_fanout_isolation
    (tools_by_name : String → (String → Except String String)) (tool_calls : List ToolCall) :
    (researcher_tool_outputs tools_by_name tool_calls).length = tool_calls.length
    ∧ (∀ i (ho : i < (researcher_tool_outputs tools_by_name tool_calls).length)
        (hc : i < tool_calls.length),
        (researcher_tool_outputs tools_by_name tool_calls)[i].tool_call_id = tool_calls[i].id
        ∧ (researcher_tool_outputs tools_by_name tool_calls)[i].name = tool_calls[i].name
        ∧ (∀ r, tools_by_name tool_calls[i].name tool_calls[i].arg = Except.ok r →
            (researcher_tool_outputs tools_by_name tool_calls)[i].content = r)
        ∧ (∀ e, tools_by_name tool_calls[i].name tool_calls[i].arg = Except.error e →
            (researcher_tool_outputs tools_by_name tool_calls)[i].content =
              "Error executing tool: " ++ e)) := by
  rw [researcher_tool_outputs_eq_map]
  refine ⟨by simp, ?_⟩
  intro i ho hc
  simp only [List.getElem_map]
  refine ⟨trivial, trivial, ?_, ?_⟩
  · intro r hr
    simp [execute_tool_safely, hr]
  · intro e he
    simp [execute_tool_safely, he]

/-- C8 witness: a two-call fan-out in which the second tool raises — the
first still returns its normal result and the second becomes a textual
error observation. -/
theorem tool_fanout_isolation_witness :
    (researcher_tool_outputs mixedToolRegistry twoToolCalls).length = twoToolCalls.length
    ∧ ((researcher_tool_outputs mixedToolRegistry twoToolCalls).get ⟨0, by decide⟩).content =
        "found: lean"
    ∧ ((researcher_tool_outputs mixedToolRegistry twoToolCalls).get ⟨1, by decide⟩).content =
        "Error executing tool: " ++ "socket closed" := by
  refine ⟨(tool_fanout_isolation mixedToolRegistry twoToolCalls).1, ?_, ?_⟩
  · exact ((tool_fanout_isolation mixedToolRegistry twoToolCalls).2 0 (by decide)
      (by decide)).2.2.1 "found: lean" (by rfl)
  · exact ((tool_fanout_isolation mixedToolRegistry twoToolCalls).2 1 (by decide)
      (by decide)).2.2.2 "socket closed" (by rfl)

/-! ## C9 — clarification halts the pipeline -/

/-- C9: whenever the clarification decision returns
`need_clarification=true` (clarification being enabled, otherwise no
decision is consulted), `clarify_with_user` routes directly to END: the
run executes no further node — in particular `research_supervisor` is
never invoked — and the only artifact appended to the outgoing state is
one assistant message carrying the clarification question. -/
theorem clarification_halts_pipeline (cfg : Configuration) (decision : ClarifyWithUser)
    (hallow : cfg.allow_clarification = true)
    (hneed : decision.need_clarification = true) :
    pipeline_run cfg decision =
      ([MainNode.clarify_with_user], [{ role := Role.ai, content := decision.question }])
    ∧ MainNode.research_supervisor ∉ (pipeline_run cfg decision).1 := by
  have h : pipeline_run cfg decision =
      ([MainNode.clarify_with_user], [{ role := Role.ai, content := decision.question }]) := by
    simp [pipeline_run, clarify_with_user, main_graph_trace, hallow, hneed]
  refine ⟨h, ?_⟩
  rw [h]
  simp

/-- C9 witness: a concrete enabled configuration and a decision demanding
clarification. -/
theorem clarification_halts_pipeline_witness :
    pipeline_run { max_researcher_iterations := 3, max_concurrent_research_units := 2
                   allow_clarification := true }
        { need_clarification := true, question := "Which period?", verification := "ok" } =
      ([MainNode.clarify_with_user], [{ role := Role.ai, content := "Which period?" }])
    ∧ MainNode.research_supervisor ∉
        (pipeline_run { max_researcher_iterations := 3, max_concurrent_research_units := 2
                        allow_clarification := true }
          { need_clarification := true, question := "Which period?", verification := "ok" }).1 :=
  clarification_halts_pipeline _ _ rfl rfl

/-! ## C2 — admission control correctness -/

/-- C2: for a dispatch round with `K = calls.length` delegation calls and
cap `C < K`, the round produces exactly `K` delegation tool-results;
result `i` carries the tool-call id of request `i`; for `i < C` it is the
worker result of executing request `i` (exactly the first `C` calls, by
position, are executed), for `i ≥ C` it is the synthesized rejection; and
the rejection text contains the configured cap value. -/
theorem admission_control (cap : Nat) (worker : ToolCall → WorkerOutput)
    (calls : List ToolCall) (msgs : List Msg)
    (hmsgs : msgs = conduct_tool_messages cap ((calls.take cap).map worker) calls)
    (hlt : cap < calls.length) :
    msgs.length = calls.length
    ∧ (∀ i (hm : i < msgs.length) (hc : i < calls.length),
        msgs[i] =
          if i < cap then conduct_tool_message (worker calls[i]) calls[i]
          else overflow_tool_message cap calls[i])
    ∧ (∀ i (hm : i < msgs.length) (hc : i < calls.length),
        msgs[i].tool_call_id = calls[i].id)
    ∧ (∃ pre post, overflow_message_content cap = pre ++ toString cap ++ post) := by
  subst hmsgs
  have hmap : conduct_tool_messages cap ((calls.take cap).map worker) calls =
      (calls.take cap).map (fun c => conduct_tool_message (worker c) c)
        ++ (calls.drop cap).map (overflow_tool_message cap) := by
    unfold conduct_tool_messages
    rw [zipWith_map_self]
  have hlen : (conduct_tool_messages cap ((calls.take cap).map worker) calls).length =
      calls.length := by
    rw [hmap]
    simp
    omega
  have hidx : ∀ i (hm : i < (conduct_tool_messages cap ((calls.take cap).map worker)
        calls).length) (hc : i < calls.length),
      (conduct_tool_messages cap ((calls.take cap).map worker) calls)[i] =
        if i < cap then conduct_tool_message (worker calls[i]) calls[i]
        else overflow_tool_message cap calls[i] := by
    intro i hm hc
    by_cases hcap : i < cap
    · have hleft : i < ((calls.take cap).map
          (fun c => conduct_tool_message (worker c) c)).length := by
        simp
        omega
      rw [if_pos hcap]
      simp only [hmap]
      rw [List.getElem_append_left hleft]
      simp only [List.getElem_map, List.getElem_take]
    · have hge : ((calls.take cap).map
          (fun c => conduct_tool_message (worker c) c)).length ≤ i := by
        simp
        omega
      rw [if_neg hcap]
      simp only [hmap]
      rw [List.getElem_append_right hge]
      simp only [List.getElem_map, List.getElem_drop, List.length_map, List.length_take]
      have harith : cap + (i - min cap calls.length) = i := by omega
      simp only [harith]
  refine ⟨hlen, hidx, ?_, ?_⟩
  · intro i hm hc
    rw [hidx i hm hc]
    by_cases hcap : i < cap
    · rw [if_pos hcap]; rfl
    · rw [if_neg hcap]; rfl
  · exact ⟨"Error: Did not run this research as you have already exceeded the maximum number of concurrent research units. Please try again with ",
      " or fewer research units.", rfl⟩

/-- C2 witness: the oversubscription scenario — cap 2, five delegation
requests: five results, the first two executed, the last three rejected
with a text containing the literal "2". -/
theorem admission_control_witness :
    (2 < fiveCalls.length)
    ∧ ((conduct_tool_messages 2 ((fiveCalls.take 2).map namedWorker) fiveCalls).length =
        fiveCalls.length
      ∧ (∀ i (hm : i < (conduct_tool_messages 2 ((fiveCalls.take 2).map namedWorker)
            fiveCalls).length) (hc : i < fiveCalls.length),
          (conduct_tool_messages 2 ((fiveCalls.take 2).map namedWorker) fiveCalls)[i] =
            if i < 2 then conduct_tool_message (namedWorker fiveCalls[i]) fiveCalls[i]
            else overflow_tool_message 2 fiveCalls[i])
      ∧ (∀ i (hm : i < (conduct_tool_messages 2 ((fiveCalls.take 2).map namedWorker)
            fiveCalls).length) (hc : i < fiveCalls.length),
          (conduct_tool_messages 2 ((fiveCalls.take 2).map namedWorker)
            fiveCalls)[i].tool_call_id = fiveCalls[i].id)
      ∧ (∃ pre post, overflow_message_content 2 = pre ++ toString 2 ++ post)) :=
  ⟨by decide,
    admission_control 2 namedWorker fiveCalls
      (conduct_tool_messages 2 ((fiveCalls.take 2).map namedWorker) fiveCalls) rfl (by decide)⟩

/-! ## C7 — a dispatch exception forces the terminal exit, keeping partial results -/

/-- C7: if the delegation dispatch raises (the gather over the admitted
calls returns an exception) in a round that was not already terminal, then
`supervisor_tools` immediately routes to END — no retry of the dispatch
round — and the resulting state surfaces the notes derived from the
supervisor thread while keeping the raw-notes accumulated so far and the
research brief (channels absent from the terminal update keep their
values). -/
theorem dispatch_exception_preserves_partial_results
    (cfg : Configuration) (worker : ToolCall → Except String WorkerOutput)
    (state : SupervisorState) (e : String)
    (hiter : state.research_iterations ≤ cfg.max_researcher_iterations)
    (hnotdone : ∀ tc ∈ (state.supervisor_messages.getLastD default).tool_calls,
        tc.name ≠ "ResearchComplete")
    (herr : gatherWorkers worker
        (((state.supervisor_messages.getLastD default).tool_calls.filter
            (fun tc => decide (tc.name = "ConductResearch"))).take
          cfg.max_concurrent_research_units) = Except.error e) :
    supervisor_tools cfg worker state =
      (SupGoto.END, { state with notes := get_notes_from_tool_calls state.supervisor_messages })
    ∧ (supervisor_tools cfg worker state).2.raw_notes = state.raw_notes
    ∧ (supervisor_tools cfg worker state).2.research_brief = state.research_brief := by
  have hconduct_ne : ((state.supervisor_messages.getLastD default).tool_calls.filter
      (fun tc => decide (tc.name = "ConductResearch"))) ≠ [] := by
    intro hnil
    rw [hnil] at herr
    simp [gatherWorkers] at herr
  have htc_ne : (state.supervisor_messages.getLastD default).tool_calls ≠ [] := by
    intro hnil
    apply hconduct_ne
    rw [hnil]
    rfl
  have hex : decide (cfg.max_researcher_iterations < state.research_iterations) = false := by
    simpa using hiter
  have hnt : (state.supervisor_messages.getLastD default).tool_calls.isEmpty = false := by
    cases hcase : (state.supervisor_messages.getLastD default).tool_calls with
    | nil => exact absurd hcase htc_ne
    | cons a as => rfl
  have hrc : (state.supervisor_messages.getLastD default).tool_calls.any
      (fun tc => decide (tc.name = "ResearchComplete")) = false := by
    rw [List.any_eq_false]
    intro tc htc
    simpa using hnotdone tc htc
  have hcie : ((state.supervisor_messages.getLastD default).tool_calls.filter
      (fun tc => decide (tc.name = "ConductResearch"))).isEmpty = false := by
    cases hcase : ((state.supervisor_messages.getLastD default).tool_calls.filter
        (fun tc => decide (tc.name = "ConductResearch"))) with
    | nil => exact absurd hcase hconduct_ne
    | cons a as => rfl
  have hmain : supervisor_tools cfg worker state =
      (SupGoto.END,
        { state with notes := get_notes_from_tool_calls state.supervisor_messages }) := by
    unfold supervisor_tools
    simp only [hex, hnt, hrc, hcie, herr, Bool.or_self, Bool.false_or, Bool.or_false,
      Bool.false_eq_true, if_false]
  exact ⟨hmain, by rw [hmain], by rw [hmain]⟩

/-- C7 witness: a mid-run state with one delegation requested and raw
notes already accumulated, dispatched against a raising worker. -/
theorem dispatch_exception_preserves_partial_results_witness :
    (midRunSupervisorState.research_iterations ≤ smallCfg.max_researcher_iterations)
    ∧ (supervisor_tools smallCfg failingWorker midRunSupervisorState =
        (SupGoto.END,
          { midRunSupervisorState with
            notes := get_notes_from_tool_calls midRunSupervisorState.supervisor_messages })
      ∧ (supervisor_tools smallCfg failingWorker midRunSupervisorState).2.raw_notes =
          midRunSupervisorState.raw_notes
      ∧ (supervisor_tools smallCfg failingWorker midRunSupervisorState).2.research_brief =
          midRunSupervisorState.research_brief) :=
  ⟨by decide,
    dispatch_exception_preserves_partial_results smallCfg failingWorker midRunSupervisorState
      "boom" (by decide)
      (by intro tc htc; fin_cases htc <;> simp [midRunSupervisorState]) (by rfl)⟩

/-! ## C1 — bounded iteration -/

/-- `supervisor_tools` never changes the iteration counter: only the
`supervisor` planning node increments it. -/
theorem supervisor_tools_iterations (cfg : Configuration)
    (worker : ToolCall → Except String WorkerOutput) (state : SupervisorState) :
    (supervisor_tools cfg worker state).2.research_iterations = state.research_iterations := by
  simp only [supervisor_tools]
  split
  · rfl
  · split
    · rfl
    · split
      · rfl
      · split <;> rfl

/-- `supervisor_tools` routes back to `supervisor` only when the iteration
counter has not yet exceeded the configured maximum (otherwise the
terminal disjunct fires). -/
theorem supervisor_tools_continue_le (cfg : Configuration)
    (worker : ToolCall → Except String WorkerOutput) (state : SupervisorState)
    (h : (supervisor_tools cfg worker state).1 = SupGoto.supervisor) :
    state.research_iterations ≤ cfg.max_researcher_iterations := by
  by_contra hc
  have hex : decide (cfg.max_researcher_iterations < state.research_iterations) = true := by
    simpa using Nat.lt_of_not_le hc
  simp only [supervisor_tools] at h
  rw [hex] at h
  simp at h

/-- The loop bound, generalized over the iteration counter at entry. -/
theorem supervisor_loop_bound_aux (cfg : Configuration) (plan : List Msg → Msg)
    (worker : ToolCall → Except String WorkerOutput) :
    ∀ (fuel : Nat) (state : SupervisorState),
      state.research_iterations ≤ cfg.max_researcher_iterations →
      cfg.max_researcher_iterations + 1 - state.research_iterations ≤ fuel →
      (supervisor_loop cfg plan worker fuel state).2.isSome = true
      ∧ (supervisor_loop cfg plan worker fuel state).1 ≤
          cfg.max_researcher_iterations + 1 - state.research_iterations := by
  intro fuel
  induction fuel with
  | zero => intro state hle hf; omega
  | succ n ih =>
    intro state hle hf
    rcases hg : supervisor_tools cfg worker (supervisor plan state) with ⟨goto, s2⟩
    have hiter2 : s2.research_iterations = state.research_iterations + 1 := by
      have h1 := supervisor_tools_iterations cfg worker (supervisor plan state)
      rw [hg] at h1
      simpa [supervisor] using h1
    cases goto with
    | END =>
      simp only [supervisor_loop, hg]
      constructor
      · rfl
      · omega
    | supervisor =>
      have hcont : (supervisor_tools cfg worker (supervisor plan state)).1 =
          SupGoto.supervisor := by rw [hg]
      have hle1 : (supervisor plan state).research_iterations ≤
          cfg.max_researcher_iterations :=
        supervisor_tools_continue_le cfg worker (supervisor plan state) hcont
      have hle1' : state.research_iterations + 1 ≤ cfg.max_researcher_iterations := by
        simpa [supervisor] using hle1
      have hrec := ih s2 (by omega) (by omega)
      simp only [supervisor_loop, hg]
      constructor
      · exact hrec.1
      · have := hrec.2
        omega

/-- C1: (supervisor half) for every configured maximum `M` and every
behavior of the planning LLM and of the workers — even plans that never
signal completion and always delegate — the Supervisor Loop reaches its
terminal exit, executing its loop body at most `M + 1` times; (self-heal
half) `self_heal` performs at most its fixed maximum of
`MAX_RETRIES = 3` patch attempts per invocation: whenever it returns a
result, its reported attempt count and its attempt history are bounded
by 3. -/
theorem bounded_iteration :
    (∀ (cfg : Configuration) (plan : List Msg → Msg)
        (worker : ToolCall → Except String WorkerOutput) (state : SupervisorState)
        (fuel : Nat),
      state.research_iterations = 0 →
      cfg.max_researcher_iterations + 1 ≤ fuel →
      (supervisor_loop cfg plan worker fuel state).2.isSome = true
      ∧ (supervisor_loop cfg plan worker fuel state).1 ≤
          cfg.max_researcher_iterations + 1)
    ∧ (∀ (execEvent : Nat → ExecEvent) (llm : Nat → String → String → ErrorType → String)
        (code : String) (res : HealResult),
      self_heal execEvent llm code = Except.ok res →
      res.attempts ≤ MAX_RETRIES ∧ res.history.length ≤ MAX_RETRIES) := by
  constructor
  · intro cfg plan worker state fuel h0 hf
    have := supervisor_loop_bound_aux cfg plan worker fuel state (by omega) (by omega)
    exact ⟨this.1, by omega⟩
  · have haux : ∀ (execEvent : Nat → ExecEvent)
        (llm : Nat → String → String → ErrorType → String) (left attempt : Nat)
        (code : String) (result : ExecutionResult) (history : List HealingAttempt)
        (res : HealResult),
        self_heal_go execEvent llm left attempt code result history = Except.ok res →
        attempt + left = MAX_RETRIES + 1 →
        res.attempts ≤ MAX_RETRIES ∧ res.history.length ≤ history.length + left := by
      intro execEvent llm left
      induction left with
      | zero =>
        intro attempt code result history res hok hsum
        simp only [self_heal_go, Except.ok.injEq] at hok
        subst hok
        exact ⟨le_rfl, by simp⟩
      | succ n ih =>
        intro attempt code result history res hok hsum
        simp only [self_heal_go] at hok
        cases hx : execute_code (execEvent attempt) with
        | error e => rw [hx] at hok; exact Except.noConfusion hok
        | ok r =>
          rw [hx] at hok
          dsimp only at hok
          by_cases hs : r.success = true
          · rw [if_pos hs] at hok
            simp only [Except.ok.injEq] at hok
            subst hok
            constructor
            · simp only [MAX_RETRIES] at hsum ⊢
              omega
            · simp
          · rw [if_neg hs] at hok
            have := ih (attempt + 1) _ r (history ++ [_]) res hok (by omega)
            refine ⟨this.1, ?_⟩
            have h2 := this.2
            simp at h2
            omega
    intro execEvent llm code res hok
    unfold self_heal at hok
    cases hx : execute_code (execEvent 0) with
    | error e => rw [hx] at hok; exact Except.noConfusion hok
    | ok r =>
      rw [hx] at hok
      dsimp only at hok
      by_cases hs : r.success = true
      · rw [if_pos hs] at hok
        simp only [Except.ok.injEq] at hok
        subst hok
        exact ⟨by simp [MAX_RETRIES], by simp⟩
      · rw [if_neg hs] at hok
        have := haux execEvent llm MAX_RETRIES 1 code r [] res hok (by simp [MAX_RETRIES])
        exact ⟨this.1, by simpa using this.2⟩

/-- C1 witness: a fresh state under an always-delegating plan with a
maximum of 2 iterations and fuel 3, and a concrete exhausted healing
run. -/
theorem bounded_iteration_witness :
    (freshSupervisorState.research_iterations = 0 ∧ smallCfg.max_researcher_iterations + 1 ≤ 3)
    ∧ ((supervisor_loop smallCfg alwaysDelegatePlan trivialWorker 3
          freshSupervisorState).2.isSome = true
      ∧ (supervisor_loop smallCfg alwaysDelegatePlan trivialWorker 3
          freshSupervisorState).1 ≤ smallCfg.max_researcher_iterations + 1)
    ∧ (exhaustedHealResult.attempts ≤ MAX_RETRIES
      ∧ exhaustedHealResult.history.length ≤ MAX_RETRIES) :=
  ⟨⟨rfl, by decide⟩,
    bounded_iteration.1 smallCfg alwaysDelegatePlan trivialWorker freshSupervisorState 3
      rfl (by decide),
    bounded_iteration.2 alwaysRaisesEnv constantPatchLLM "bad" exhaustedHealResult (by rfl)⟩

/-! ## C3 — healing exhaustion -/

/-- One failed-execution step of the healing loop: generate the patch,
record the attempt, re-execute, and continue with one fewer attempt
left. -/
theorem self_heal_go_fail_step (execEvent : Nat → ExecEvent)
    (llm : Nat → String → String → ErrorType → String) (n attempt : Nat)
    (code : String) (result : ExecutionResult) (history : List HealingAttempt)
    (r : ExecutionResult)
    (hx : execute_code (execEvent attempt) = Except.ok r) (hs : r.success = false) :
    self_heal_go execEvent llm (n + 1) attempt code result history =
      self_heal_go execEvent llm n (attempt + 1)
        (generate_patch llm attempt code (result.error.getD "")
          (result.error_type.getD ErrorType.UNKNOWN))
        r
        (history ++
          [{ attempt_number := attempt
             error_context := result.error.getD ""
             patch_generated := generate_patch llm attempt code (result.error.getD "")
               (result.error_type.getD ErrorType.UNKNOWN)
             result := result }]) := by
  simp only [self_heal_go]
  rw [hx]
  dsimp only
  rw [if_neg (by simp [hs])]

/-- C3: if every execution fails, `self_heal` returns `success = false`,
`attempts = MAX_RETRIES = 3`, a history of exactly 3 healing-attempt
records numbered `1, 2, 3` in order, the last patched code version as
`final_code`, and the last execution's error text as `last_error`. -/
theorem healing_exhaustion (execEvent : Nat → ExecEvent)
    (llm : Nat → String → String → ErrorType → String) (code : String)
    (hfail : ∀ k, ∃ r, execute_code (execEvent k) = Except.ok r ∧ r.success = false) :
    ∃ res, self_heal execEvent llm code = Except.ok res
      ∧ res.success = false
      ∧ res.attempts = 3
      ∧ res.history.length = 3
      ∧ (∀ i (h : i < res.history.length), (res.history.get ⟨i, h⟩).attempt_number = i + 1)
      ∧ res.history.getLast?.map HealingAttempt.patch_generated = some res.final_code
      ∧ (∃ r3, execute_code (execEvent 3) = Except.ok r3 ∧ res.last_error = r3.error) := by
  obtain ⟨r0, h0, hs0⟩ := hfail 0
  obtain ⟨r1, h1, hs1⟩ := hfail 1
  obtain ⟨r2, h2, hs2⟩ := hfail 2
  obtain ⟨r3, h3, hs3⟩ := hfail 3
  set p1 := generate_patch llm 1 code (r0.error.getD "")
    (r0.error_type.getD ErrorType.UNKNOWN) with hp1
  set p2 := generate_patch llm 2 p1 (r1.error.getD "")
    (r1.error_type.getD ErrorType.UNKNOWN) with hp2
  set p3 := generate_patch llm 3 p2 (r2.error.getD "")
    (r2.error_type.getD ErrorType.UNKNOWN) with hp3
  have e0 : self_heal execEvent llm code = self_heal_go execEvent llm 3 1 code r0 [] := by
    unfold self_heal
    rw [h0]
    dsimp only
    rw [if_neg (by simp [hs0])]
    rfl
  have e1 : self_heal_go execEvent llm 3 1 code r0 [] =
      self_heal_go execEvent llm 2 2 p1 r1
        [{ attempt_number := 1, error_context := r0.error.getD ""
           patch_generated := p1, result := r0 }] :=
    self_heal_go_fail_step execEvent llm 2 1 code r0 [] r1 h1 hs1
  have e2 : self_heal_go execEvent llm 2 2 p1 r1
      [{ attempt_number := 1, error_context := r0.error.getD ""
         patch_generated := p1, result := r0 }] =
      self_heal_go execEvent llm 1 3 p2 r2
        [{ attempt_number := 1, error_context := r0.error.getD ""
           patch_generated := p1, result := r0 },
         { attempt_number := 2, error_context := r1.error.getD ""
           patch_generated := p2, result := r1 }] :=
    self_heal_go_fail_step execEvent llm 1 2 p1 r1 _ r2 h2 hs2
  have e3 : self_heal_go execEvent llm 1 3 p2 r2
      [{ attempt_number := 1, error_context := r0.error.getD ""
         patch_generated := p1, result := r0 },
       { attempt_number := 2, error_context := r1.error.getD ""
         patch_generated := p2, result := r1 }] =
      self_heal_go execEvent llm 0 4 p3 r3
        [{ attempt_number := 1, error_context := r0.error.getD ""
           patch_generated := p1, result := r0 },
         { attempt_number := 2, error_context := r1.error.getD ""
           patch_generated := p2, result := r1 },
         { attempt_number := 3, error_context := r2.error.getD ""
           patch_generated := p3, result := r2 }] :=
    self_heal_go_fail_step execEvent llm 0 3 p2 r2 _ r3 h3 hs3
  have e4 : self_heal_go execEvent llm 0 4 p3 r3
      [{ attempt_number := 1, error_context := r0.error.getD ""
         patch_generated := p1, result := r0 },
       { attempt_number := 2, error_context := r1.error.getD ""
         patch_generated := p2, result := r1 },
       { attempt_number := 3, error_context := r2.error.getD ""
         patch_generated := p3, result := r2 }] =
      Except.ok
        { success := false
          final_code := p3
          attempts := MAX_RETRIES
          history :=
            [{ attempt_number := 1, error_context := r0.error.getD ""
               patch_generated := p1, result := r0 },
             { attempt_number := 2, error_context := r1.error.getD ""
               patch_generated := p2, result := r1 },
             { attempt_number := 3, error_context := r2.error.getD ""
               patch_generated := p3, result := r2 }]
          message := "Failed to heal code after " ++ toString MAX_RETRIES ++ " attempts"
          last_error := r3.error } := rfl
  refine ⟨_, e0.trans (e1.trans (e2.trans (e3.trans e4))), rfl, rfl, rfl, ?_, rfl, r3, h3, rfl⟩
  intro i h
  simp only [List.length_cons, List.length_nil] at h
  rcases i with _ | _ | _ | i
  · rfl
  · rfl
  · rfl
  · omega

/-- C3 witness: the theorem applied to an environment in which every
execution raises inside `subprocess.run` (hence fails). -/
theorem healing_exhaustion_witness :
    ∃ res, self_heal alwaysRaisesEnv constantPatchLLM "bad" = Except.ok res
      ∧ res.success = false
      ∧ res.attempts = 3
      ∧ res.history.length = 3
      ∧ (∀ i (h : i < res.history.length), (res.history.get ⟨i, h⟩).attempt_number = i + 1)
      ∧ res.history.getLast?.map HealingAttempt.patch_generated = some res.final_code
      ∧ (∃ r3, execute_code (alwaysRaisesEnv 3) = Except.ok r3 ∧ res.last_error = r3.error) :=
  healing_exhaustion alwaysRaisesEnv constantPatchLLM "bad"
    (fun k =>
      ⟨{ success := false, output := "", error := some "boom"
         error_type := some ErrorType.UNKNOWN, exit_code := -1 }, rfl, rfl⟩)
